import Mathlib

set_option maxRecDepth 100000

/-!
Verification of the SSE decoder and orchestration in `cortex_agents.py`.

The embedding models Python values decoded from JSON as `JVal`, Python
exceptions as `PyErr`, and fallible Python evaluation as `Except PyErr`.
`process_sse_response`, `detect_japanese` and `run_cortex_search` are
translated from the source; the network is passed in as an `HttpOutcome`
parameter (status, decoded error body, the streamed lines, and an optional
transport failure raised while the stream is being read).
-/

/-- A JSON value as `json.loads` produces it (`None`, `bool`, numbers as
mantissa and a power-of-ten exponent, `str`, `list`, `dict` as an ordered
association list, later duplicate keys overwriting earlier ones in place). -/
inductive JVal where
  | null : JVal
  | bool (b : Bool) : JVal
  | num (m : Int) (e : Int) : JVal
  | str (s : String) : JVal
  | arr (elems : List JVal) : JVal
  | obj (fields : List (String × JVal)) : JVal

/-- A Python exception as the decoder can raise it. -/
inductive PyErr where
  | keyError (key : String) : PyErr
  | attributeError (msg : String) : PyErr
  | typeError (msg : String) : PyErr
  | transportError (msg : String) : PyErr

/-- `str(e)` of a caught exception, as interpolated into `f"Request failed: {e}"`. -/
def PyErr.msg : PyErr → String
  | .keyError k => "\x27" ++ k ++ "\x27"
  | .attributeError m => m
  | .typeError m => m
  | .transportError m => m

/-- The Python type name of a value, used in exception messages. -/
def typeName : JVal → String
  | .null => "NoneType"
  | .bool _ => "bool"
  | .num _ _ => "int"
  | .str _ => "str"
  | .arr _ => "list"
  | .obj _ => "dict"

/-- Python truthiness of a decoded JSON value. -/
def JVal.truthy : JVal → Bool
  | .null => false
  | .bool b => b
  | .num m _ => !(m == 0)
  | .str s => !(s == "")
  | .arr xs => !xs.isEmpty
  | .obj kvs => !kvs.isEmpty

/-- `isinstance(v, dict)`. -/
def JVal.isObj : JVal → Bool
  | .obj _ => true
  | _ => false

/-- First-match association-list lookup (the parser keeps keys unique). -/
def lookupField : List (String × JVal) → String → Option JVal
  | [], _ => none
  | (k, v) :: rest, key => if k == key then some v else lookupField rest key

/-- `d.get(k, default)`: the field, the default when missing; `AttributeError`
when the receiver is not a dict. -/
def pyGetD (v : JVal) (k : String) (d : JVal) : Except PyErr JVal :=
  match v with
  | .obj kvs => .ok ((lookupField kvs k).getD d)
  | w => .error (.attributeError ("\x27" ++ typeName w ++ "\x27 object has no attribute \x27get\x27"))

/-- `d.get(k)` (default `None`). -/
def pyGet (v : JVal) (k : String) : Except PyErr JVal :=
  pyGetD v k JVal.null

/-- `d[k]`: `KeyError` when the key is missing, `TypeError` when the receiver
is not a dict. -/
def pySub (v : JVal) (k : String) : Except PyErr JVal :=
  match v with
  | .obj kvs =>
    match lookupField kvs k with
    | some x => .ok x
    | none => .error (.keyError k)
  | w => .error (.typeError ("\x27" ++ typeName w ++ "\x27 object is not subscriptable"))

/-- `for x in v`: lists yield elements, strings their characters, dicts their
keys; other values raise `TypeError`. -/
def pyIter : JVal → Except PyErr (List JVal)
  | .arr xs => .ok xs
  | .str s => .ok (s.data.map (fun c => JVal.str (String.mk [c])))
  | .obj kvs => .ok (kvs.map (fun kv => JVal.str kv.1))
  | w => .error (.typeError ("\x27" ++ typeName w ++ "\x27 object is not iterable"))

/-- `acc + v` on the accumulated answer text: only a `str` may be appended. -/
def pyAddStr (acc : String) (v : JVal) : Except PyErr String :=
  match v with
  | .str s => .ok (acc ++ s)
  | w => .error (.typeError ("can only concatenate str (not \x27" ++ typeName w ++ "\x27) to str"))

/-- Python `v == "lit"` for a decoded value and a string literal. -/
def isStrEq (v : JVal) (lit : String) : Bool :=
  match v with
  | .str t => t == lit
  | _ => false

/-- The whitespace `json` and `str.strip` treat as blank. -/
def isWsChar (c : Char) : Bool :=
  c == ' ' || c == '\t' || c == '\n' || c == '\r'

def quoteChar : Char := Char.ofNat 34
def backslashChar : Char := Char.ofNat 92
def lbraceChar : Char := Char.ofNat 123
def rbraceChar : Char := Char.ofNat 125

def dropWs : List Char → List Char
  | [] => []
  | c :: cs => if isWsChar c then dropWs cs else c :: cs

def skipWs (cs : List Char) : List Char := dropWs cs

/-- `str.strip()`. -/
def trimChars (l : List Char) : List Char :=
  ((dropWs ((dropWs l).reverse)).reverse)

/-- `some rest` when `pre` is a prefix of `s`, with the rest of `s`. -/
def stripPrefixChars : List Char → List Char → Option (List Char)
  | [], cs => some cs
  | p :: ps, c :: cs => if c == p then stripPrefixChars ps cs else none
  | _ :: _, [] => none

def hexVal (c : Char) : Option Nat :=
  if c.toNat ≥ 48 && c.toNat ≤ 57 then some (c.toNat - 48)
  else if c.toNat ≥ 97 && c.toNat ≤ 102 then some (c.toNat - 87)
  else if c.toNat ≥ 65 && c.toNat ≤ 70 then some (c.toNat - 55)
  else none

/-- Decode one escape sequence after a backslash inside a JSON string. -/
def decodeEscape : List Char → Option (Char × List Char)
  | [] => none
  | e :: rest =>
    if e == quoteChar then some (quoteChar, rest)
    else if e == backslashChar then some (backslashChar, rest)
    else if e == '/' then some ('/', rest)
    else if e == 'b' then some (Char.ofNat 8, rest)
    else if e == 'f' then some (Char.ofNat 12, rest)
    else if e == 'n' then some ('\n', rest)
    else if e == 'r' then some ('\r', rest)
    else if e == 't' then some ('\t', rest)
    else if e == 'u' then
      match rest with
      | h1 :: h2 :: h3 :: h4 :: rest2 =>
        match hexVal h1, hexVal h2, hexVal h3, hexVal h4 with
        | some a, some b, some c, some d =>
          some (Char.ofNat (((a * 16 + b) * 16 + c) * 16 + d), rest2)
        | _, _, _, _ => none
      | _ => none
    else none

/-- The body of a JSON string after the opening quote; strict about raw
control characters, as `json.loads` is. -/
def parseStringBody : Nat → List Char → Option (String × List Char)
  | 0, _ => none
  | fuel + 1, cs =>
    match cs with
    | [] => none
    | c :: rest =>
      if c == quoteChar then some ("", rest)
      else if c == backslashChar then
        match decodeEscape rest with
        | some (d, rest2) =>
          match parseStringBody fuel rest2 with
          | some (s, r) => some (String.mk (d :: s.data), r)
          | none => none
        | none => none
      else if c.toNat < 32 then none
      else
        match parseStringBody fuel rest with
        | some (s, r) => some (String.mk (c :: s.data), r)
        | none => none

def digitVal (c : Char) : Option Nat :=
  if c.toNat ≥ 48 && c.toNat ≤ 57 then some (c.toNat - 48) else none

def takeDigits : List Char → List Nat × List Char
  | [] => ([], [])
  | c :: cs =>
    match digitVal c with
    | some d =>
      match takeDigits cs with
      | (ds, rest) => (d :: ds, rest)
    | none => ([], c :: cs)

def digitsToNat (ds : List Nat) : Nat := ds.foldl (fun a d => a * 10 + d) 0

/-- The optional fraction part: input is positioned after the integer digits;
returns the scaled mantissa, the power-of-ten exponent and the rest. -/
def parseFrac (m : Int) (cs : List Char) : Option (Int × Int × List Char) :=
  match cs with
  | c :: rest =>
    if c == '.' then
      match takeDigits rest with
      | ([], _) => none
      | (ds, rest2) =>
        some (m * ((10 : Nat) ^ ds.length : Nat) + (digitsToNat ds : Int), -(ds.length : Int), rest2)
    else some (m, 0, cs)
  | [] => some (m, 0, [])

/-- The optional exponent part. -/
def parseExp (m : Int) (e : Int) (cs : List Char) : Option (Int × Int × List Char) :=
  match cs with
  | c :: rest =>
    if c == 'e' || c == 'E' then
      match
        (match rest with
         | d :: r2 =>
           if d == '+' then ((1 : Int), r2)
           else if d == '-' then ((-1 : Int), r2)
           else ((1 : Int), rest)
         | [] => ((1 : Int), ([] : List Char))) with
      | (esign, rest1) =>
        match takeDigits rest1 with
        | ([], _) => none
        | (ds, rest2) => some (m, e + esign * (digitsToNat ds : Int), rest2)
    else some (m, e, cs)
  | [] => some (m, e, [])

/-- A JSON number (strict: no leading zeros, a fraction and an exponent need
digits). -/
def parseNumber (cs : List Char) : Option (JVal × List Char) :=
  match
    (match cs with
     | c :: rest => if c == '-' then (true, rest) else (false, cs)
     | [] => (false, ([] : List Char))) with
  | (neg, cs1) =>
    match takeDigits cs1 with
    | ([], _) => none
    | (ds, cs2) =>
      if ds.length > 1 && ds.headD 1 == 0 then none
      else
        match parseFrac (digitsToNat ds : Int) cs2 with
        | none => none
        | some (m1, e1, cs3) =>
          match parseExp m1 e1 cs3 with
          | none => none
          | some (m2, e2, cs4) =>
            some (.num (if neg then -m2 else m2) e2, cs4)

/-- `dict` insertion while parsing an object: a repeated key overwrites the
earlier value in place, as Python dicts do. -/
def insertField : List (String × JVal) → String → JVal → List (String × JVal)
  | [], k, v => [(k, v)]
  | (k2, v2) :: rest, k, v =>
    if k2 == k then (k, v) :: rest else (k2, v2) :: insertField rest k v

mutual

/-- One JSON value; fuel bounds the recursion and is chosen large enough at
the top entry. -/
def parseValue : Nat → List Char → Option (JVal × List Char)
  | 0, _ => none
  | fuel + 1, cs =>
    match cs with
    | [] => none
    | c :: rest =>
      if c == quoteChar then
        match parseStringBody (rest.length + 1) rest with
        | some (s, r) => some (.str s, r)
        | none => none
      else if c == lbraceChar then parseObjFields fuel (skipWs rest) []
      else if c == '[' then parseArrElems fuel (skipWs rest) []
      else
        match stripPrefixChars ['t', 'r', 'u', 'e'] cs with
        | some r => some (.bool true, r)
        | none =>
          match stripPrefixChars ['f', 'a', 'l', 's', 'e'] cs with
          | some r => some (.bool false, r)
          | none =>
            match stripPrefixChars ['n', 'u', 'l', 'l'] cs with
            | some r => some (.null, r)
            | none => parseNumber cs

/-- Array elements after `[`; `acc` holds the elements read so far. -/
def parseArrElems : Nat → List Char → List JVal → Option (JVal × List Char)
  | 0, _, _ => none
  | fuel + 1, cs, acc =>
    match cs with
    | [] => none
    | c :: rest =>
      if c == ']' && acc.isEmpty then some (.arr [], rest)
      else
        match parseValue fuel cs with
        | none => none
        | some (v, r) =>
          match skipWs r with
          | [] => none
          | c2 :: r2 =>
            if c2 == ',' then parseArrElems fuel (skipWs r2) (acc ++ [v])
            else if c2 == ']' then some (.arr (acc ++ [v]), r2)
            else none

/-- Object fields after the opening brace. -/
def parseObjFields : Nat → List Char → List (String × JVal) → Option (JVal × List Char)
  | 0, _, _ => none
  | fuel + 1, cs, acc =>
    match cs with
    | [] => none
    | c :: rest =>
      if c == rbraceChar && acc.isEmpty then some (.obj [], rest)
      else if c == quoteChar then
        match parseStringBody (rest.length + 1) rest with
        | none => none
        | some (k, r) =>
          match skipWs r with
          | [] => none
          | c2 :: r2 =>
            if c2 == ':' then
              match parseValue fuel (skipWs r2) with
              | none => none
              | some (v, r3) =>
                match skipWs r3 with
                | [] => none
                | c3 :: r4 =>
                  if c3 == ',' then parseObjFields fuel (skipWs r4) (insertField acc k v)
                  else if c3 == rbraceChar then some (.obj (insertField acc k v), r4)
                  else none
            else none
      else none

end

/-- `json.loads`: `none` models `json.JSONDecodeError`. -/
def parseJson (s : String) : Option JVal :=
  match parseValue (2 * s.data.length + 4) (skipWs s.data) with
  | some (v, rest) => if (skipWs rest).isEmpty then some v else none
  | none => none

/-! The SSE decoder, translated from `process_sse_response` (lines 56-95 of
`cortex_agents.py`). The running state is the pair of the accumulated answer
text and the accumulated citation dicts. -/

/-- The running `(text, citations)` accumulator. -/
abbrev AccState := String × List JVal

/-- Lines 63-71: `some payload` when the raw line survives the filter (a
non-empty line that, stripped, starts with `data:`, whose stripped payload is
neither empty nor the `[DONE]` sentinel). -/
def payloadOfLine (raw : String) : Option String :=
  if raw.data.isEmpty then none
  else
    match stripPrefixChars ("data:".data) (trimChars raw.data) with
    | none => none
    | some afterPrefix =>
      match trimChars afterPrefix with
      | [] => none
      | payload =>
        if payload == "[DONE]".data then none
        else some (String.mk payload)

/-- Lines 90-94: the body of `for s in j.get("searchResults", []):` — build
the `{"source_id": ..., "doc_id": ...}` dict and append it. -/
def appendCitation (cites : List JVal) (s : JVal) : Except PyErr (List JVal) :=
  match pyGet s "source_id" with
  | .error e => .error e
  | .ok sid =>
    match pyGet s "doc_id" with
    | .error e => .error e
    | .ok did =>
      .ok (cites ++ [JVal.obj [("source_id", sid), ("doc_id", did)]])

/-- Lines 86-94: the body of the loop over `item["tool_results"]["content"]`:
a `json`-typed entry contributes its `text` (via `j.get("text", "")`, a raw
`result["json"]` subscript for `j`) and its `searchResults` citations. -/
def processResult (st : AccState) (result : JVal) : Except PyErr AccState :=
  match pyGet result "type" with
  | .error e => .error e
  | .ok rt =>
    if isStrEq rt "json" then
      match pySub result "json" with
      | .error e => .error e
      | .ok j =>
        match pyGetD j "text" (JVal.str "") with
        | .error e => .error e
        | .ok tx =>
          match pyAddStr st.1 tx with
          | .error e => .error e
          | .ok text1 =>
            match pyGetD j "searchResults" (JVal.arr []) with
            | .error e => .error e
            | .ok srs =>
              match pyIter srs with
              | .error e => .error e
              | .ok elems =>
                match elems.foldlM appendCitation st.2 with
                | .error e => .error e
                | .ok cites => .ok (text1, cites)
    else .ok st

/-- Lines 80-94: one content item of a delta — a `text` item appends
`item.get("text", "")`, a `tool_results` item loops over
`item["tool_results"].get("content", [])` (a raw subscript), anything else is
ignored. -/
def processItem (st : AccState) (item : JVal) : Except PyErr AccState :=
  match pyGet item "type" with
  | .error e => .error e
  | .ok t =>
    if isStrEq t "text" then
      match pyGetD item "text" (JVal.str "") with
      | .error e => .error e
      | .ok tx =>
        match pyAddStr st.1 tx with
        | .error e => .error e
        | .ok text1 => .ok (text1, st.2)
    else if isStrEq t "tool_results" then
      match pySub item "tool_results" with
      | .error e => .error e
      | .ok tr =>
        match pyGetD tr "content" (JVal.arr []) with
        | .error e => .error e
        | .ok content =>
          match pyIter content with
          | .error e => .error e
          | .ok results => results.foldlM processResult st
    else .ok st

/-- Line 77: `delta = evt.get("delta") or evt.get("data", {}).get("delta")`
with Python `or` (truthiness, short-circuit). -/
def codeDeltaSelect (evt : JVal) : Except PyErr JVal :=
  match pyGet evt "delta" with
  | .error e => .error e
  | .ok d1 =>
    if d1.truthy then .ok d1
    else
      match pyGetD evt "data" (JVal.obj []) with
      | .error e => .error e
      | .ok dataField => pyGet dataField "delta"

/-- Lines 80-94: the loop `for item in delta.get("content", [])` over one
delta known to be a dict. -/
def processDelta (st : AccState) (delta : JVal) : Except PyErr AccState :=
  match pyGetD delta "content" (JVal.arr []) with
  | .error e => .error e
  | .ok content =>
    match pyIter content with
    | .error e => .error e
    | .ok items => items.foldlM processItem st

/-- Lines 77-94: one successfully parsed event: locate the delta, skip the
frame unless it is a dict, then accumulate its content. -/
def processEvt (st : AccState) (evt : JVal) : Except PyErr AccState :=
  match codeDeltaSelect evt with
  | .error e => .error e
  | .ok delta =>
    if delta.isObj then processDelta st delta
    else .ok st

/-- Lines 72-94: one frame payload: `json.loads` inside
`try/except json.JSONDecodeError` (a malformed payload is skipped), then the
event is processed. -/
def processPayload (st : AccState) (payload : String) : Except PyErr AccState :=
  match parseJson payload with
  | none => .ok st
  | some evt => processEvt st evt

/-- Lines 62-94: one raw line of the stream. -/
def processLine (st : AccState) (raw : String) : Except PyErr AccState :=
  match payloadOfLine raw with
  | none => .ok st
  | some p => processPayload st p

/-- `process_sse_response` (lines 56-95): fold the per-line step over the
stream's lines and return `(text, "", citations)` — line 95 discards any SQL
and returns the empty string. An `.error` is an exception propagating out of
the coroutine. -/
def process_sse_response (lines : List String) : Except PyErr (String × String × List JVal) :=
  match lines.foldlM processLine ("", []) with
  | .error e => .error e
  | .ok st => .ok (st.1, "", st.2)

/-! `detect_japanese` and `run_cortex_search` (lines 43-54 and 124-217). -/

/-- The character class of the regex
`[぀-ゟ゠-ヿ一-龯]` (line 53). -/
def isJapaneseChar (c : Char) : Bool :=
  (0x3040 ≤ c.toNat && c.toNat ≤ 0x309F) ||
  (0x30A0 ≤ c.toNat && c.toNat ≤ 0x30FF) ||
  (0x4E00 ≤ c.toNat && c.toNat ≤ 0x9FAF)

/-- `detect_japanese` (lines 43-54): `re.search` of that class, i.e. some
character of the text lies in one of the three ranges. -/
def detect_japanese (text : String) : Bool :=
  text.data.any isJapaneseChar

/-- Lines 155-162: the canned translation-request response returned without
touching the network when Japanese is detected. -/
def translationResponse (query : String) : JVal :=
  .obj [
    ("status", .str "TRANSLATION_REQUIRED"),
    ("error", .str "Japanese query detected - English translation required"),
    ("original_query", .str query),
    ("instruction", .str "Please translate this Japanese query to English and call run_cortex_search again with the English version."),
    ("example", .str ("Original: \x27" ++ query ++ "\x27 → Translate to English → Call run_cortex_search(\x27English translation\x27)")),
    ("note", .str "This tool only processes English queries for optimal search results.")
  ]

/-- What the network phase of `run_cortex_search` can produce, passed to the
embedding as a parameter: an exception raised while opening or sending the
request, or a response with its HTTP status, decoded error body, streamed
lines, and an optional transport failure raised while the stream was being
read (after the given lines were delivered). -/
inductive HttpOutcome where
  | exn (msg : String) : HttpOutcome
  | response (status : Nat) (body : String) (lines : List String)
      (streamErr : Option String) : HttpOutcome

/-- Lines 196-210, the body of the `try:` block: a non-200 status returns the
error dict without touching the stream; otherwise the SSE response is
processed (its exceptions, and a transport failure while reading, propagate
to the surrounding `except`). -/
def runTry (net : HttpOutcome) : Except PyErr JVal :=
  match net with
  | .exn m => .error (.transportError m)
  | .response status body lines streamErr =>
    if status != 200 then
      .ok (.obj [("error", .str ("HTTP " ++ toString status ++ ": " ++ body))])
    else
      match process_sse_response lines with
      | .error e => .error e
      | .ok r =>
        match streamErr with
        | some m => .error (.transportError m)
        | none => .ok (.obj [("text", .str r.1), ("citations", .arr r.2.2)])

/-- `run_cortex_search` (lines 124-217): the Japanese gate, then the guarded
network phase; any exception is caught (line 211) and converted to
`{"error": f"Request failed: {e}"}`; on success only `text` and `citations`
are returned (lines 214-217). -/
def run_cortex_search (query : String) (net : HttpOutcome) : JVal :=
  if detect_japanese query then translationResponse query
  else
    match runTry net with
    | .ok d => d
    | .error e => .obj [("error", .str ("Request failed: " ++ e.msg))]

/-! Specification-side definitions: the extraction described by the spec as a
compositional (stateless, exception-free) collection over the stream, used to
compare with the code's stateful, exception-throwing accumulator. -/

/-- Concatenation of a list of strings, in order. -/
def joinStr : List String → String
  | [] => ""
  | s :: rest => s ++ joinStr rest

/-- Concatenation of a list of lists, in order. -/
def catLists {α : Type} : List (List α) → List α
  | [] => []
  | x :: xs => x ++ catLists xs

/-- Field lookup on a JSON object; `none` for a missing field or a non-object. -/
def jLookup (v : JVal) (k : String) : Option JVal :=
  match v with
  | .obj kvs => lookupField kvs k
  | _ => none

/-- A string field's value, the empty string when missing or not a string
("defaulting to the empty string when missing"). -/
def jStr : Option JVal → String
  | some (.str s) => s
  | _ => ""

/-- The elements of a JSON array; the empty sequence for anything else
("if `content` is absent, treat it as an empty sequence"). -/
def jElems : JVal → List JVal
  | .arr xs => xs
  | _ => []

/-- Whether a content item or tool-result entry is tagged with the given type. -/
def jTypeIs (v : JVal) (tag : String) : Bool :=
  isStrEq ((jLookup v "type").getD JVal.null) tag

/-- The citation dict built from one `searchResults` element: both fields
passed through as-is, null when absent. -/
def citeOf (s : JVal) : JVal :=
  .obj [("source_id", (jLookup s "source_id").getD JVal.null),
        ("doc_id", (jLookup s "doc_id").getD JVal.null)]

/-- The text a `json`-typed tool-result entry contributes. -/
def specResultText (r : JVal) : String :=
  if jTypeIs r "json" then jStr (jLookup ((jLookup r "json").getD JVal.null) "text")
  else ""

/-- The citations a `json`-typed tool-result entry contributes, in order. -/
def specResultCites (r : JVal) : List JVal :=
  if jTypeIs r "json" then
    (jElems ((jLookup ((jLookup r "json").getD JVal.null) "searchResults").getD JVal.null)).map citeOf
  else []

/-- The tool-result entries of a `tool_results` content item. -/
def itemEntries (item : JVal) : List JVal :=
  jElems ((jLookup ((jLookup item "tool_results").getD JVal.null) "content").getD JVal.null)

/-- The text one content item contributes: a `text` item its `text` field
(default empty), a `tool_results` item the texts of its `json`-typed entries,
anything else nothing. -/
def specItemText (item : JVal) : String :=
  if jTypeIs item "text" then jStr (jLookup item "text")
  else if jTypeIs item "tool_results" then joinStr ((itemEntries item).map specResultText)
  else ""

/-- The citations one content item contributes, in order. -/
def specItemCites (item : JVal) : List JVal :=
  if jTypeIs item "text" then []
  else if jTypeIs item "tool_results" then catLists ((itemEntries item).map specResultCites)
  else []

/-- The delta the code's truthiness-based selection locates, as a total
function: the top-level `delta` when truthy, otherwise the `delta` under
`data` when `data` is an object or absent; `none` when the frame would be
skipped or the selection would raise. -/
def specEvtDelta (evt : JVal) : Option JVal :=
  match evt with
  | .obj kvs =>
    match ((lookupField kvs "delta").getD JVal.null) with
    | d1 =>
      if d1.truthy then some d1
      else
        match (lookupField kvs "data").getD (JVal.obj []) with
        | .obj dkvs => some ((lookupField dkvs "delta").getD JVal.null)
        | _ => none
  | _ => none

/-- The content items a parsed event contributes (none unless the selected
delta is an object). -/
def specEvtItems (evt : JVal) : List JVal :=
  match specEvtDelta evt with
  | some (JVal.obj dkvs) => jElems ((lookupField dkvs "content").getD JVal.null)
  | _ => []

/-- The content items one frame payload contributes: none for malformed
payloads. -/
def specPayloadItems (p : String) : List JVal :=
  match parseJson p with
  | none => []
  | some evt => specEvtItems evt

/-- The content items one raw line contributes: none for filtered-out lines. -/
def specLineItems (raw : String) : List JVal :=
  match payloadOfLine raw with
  | none => []
  | some p => specPayloadItems p

/-- The spec's answer text for a whole stream: the in-order concatenation of
the contributions of every content item of every valid `data:` frame. -/
def specText (lines : List String) : String :=
  joinStr (lines.map (fun raw => joinStr ((specLineItems raw).map specItemText)))

/-- The spec's citation list for a whole stream, in arrival order, never
deduplicated. -/
def specCitations (lines : List String) : List JVal :=
  catLists (lines.map (fun raw => catLists ((specLineItems raw).map specItemCites)))

/-! The delta-selection rule as §4.2 of the spec states it, and the
spec-modelled full-agent decoder (§3, §4.3: the flavor that retains `sql`
last-write-wins; its code is not among the repository files under src/, so it
is modelled from the spec's words). -/

/-- The §4.2 rule as written: take the top-level `delta` when it is present
and an object; only when it is absent or not an object consult the `delta`
nested one level under `data`; skip the frame when neither yields an object. -/
def specDeltaRule (evt : JVal) : Option JVal :=
  match jLookup evt "delta" with
  | some d =>
    if d.isObj then some d
    else
      match jLookup ((jLookup evt "data").getD JVal.null) "delta" with
      | some d2 => if d2.isObj then some d2 else none
      | none => none
  | none =>
    match jLookup ((jLookup evt "data").getD JVal.null) "delta" with
    | some d2 => if d2.isObj then some d2 else none
    | none => none

/-- Modelled from the spec: the `AccumulatedResponse` of §3 threaded by the
full-agent flavor of the decoder, whose source is not under src/ (only the
search-only flavor is): `text` append-only, `sql` last-write-wins, citations
append-only in arrival order. -/
structure FullAcc where
  text : String
  sql : String
  citations : List JVal

/-- Modelled from the spec (§4.3): one `json`-typed tool-result entry of the
full-agent accumulator — append its text, overwrite `sql` when the entry
carries a `sql` string, append its `searchResults` citations. -/
def fullResult (acc : FullAcc) (r : JVal) : FullAcc :=
  if jTypeIs r "json" then
    { text := acc.text ++ specResultText r,
      sql :=
        match jLookup ((jLookup r "json").getD JVal.null) "sql" with
        | some (.str s) => s
        | _ => acc.sql,
      citations := acc.citations ++ specResultCites r }
  else acc

/-- Modelled from the spec (§4.3): one content item of the full-agent
accumulator. -/
def fullItem (acc : FullAcc) (item : JVal) : FullAcc :=
  if jTypeIs item "text" then { acc with text := acc.text ++ jStr (jLookup item "text") }
  else if jTypeIs item "tool_results" then (itemEntries item).foldl fullResult acc
  else acc

/-- Modelled from the spec (§4.2-§4.3): one parsed event of the full-agent
decoder, locating the delta by the §4.2 rule. -/
def fullEvt (acc : FullAcc) (evt : JVal) : FullAcc :=
  match specDeltaRule evt with
  | some delta => (jElems ((jLookup delta "content").getD JVal.null)).foldl fullItem acc
  | none => acc

/-- Modelled from the spec (§4.1-§4.3): one raw line of the full-agent
decoder. -/
def fullLine (acc : FullAcc) (raw : String) : FullAcc :=
  match payloadOfLine raw with
  | none => acc
  | some p =>
    match parseJson p with
    | none => acc
    | some evt => fullEvt acc evt

/-- Modelled from the spec (§4.4): the full-agent flavor of
`process_sse_response`, driving §4.1-§4.3 over the whole stream from the
empty accumulator. -/
def process_sse_response_full (lines : List String) : FullAcc :=
  lines.foldl fullLine { text := "", sql := "", citations := [] }

/-- The `sql` values supplied by one `json`-typed tool-result entry (at most
one: the entry's `sql` string when it carries one). -/
def resultSqls (r : JVal) : List String :=
  if jTypeIs r "json" then
    match jLookup ((jLookup r "json").getD JVal.null) "sql" with
    | some (.str s) => [s]
    | _ => []
  else []

/-- The `sql` values supplied by one content item, in order. -/
def itemSqls (item : JVal) : List String :=
  if jTypeIs item "text" then []
  else if jTypeIs item "tool_results" then catLists ((itemEntries item).map resultSqls)
  else []

/-- The `sql` values supplied by one parsed event, in order. -/
def evtSqls (evt : JVal) : List String :=
  match specDeltaRule evt with
  | some delta => catLists ((jElems ((jLookup delta "content").getD JVal.null)).map itemSqls)
  | none => []

/-- The `sql` values supplied by one raw line, in order. -/
def lineSqls (raw : String) : List String :=
  match payloadOfLine raw with
  | none => []
  | some p =>
    match parseJson p with
    | none => []
    | some evt => evtSqls evt

/-- Every `sql` value supplied across the whole stream, in arrival order. -/
def sqlWrites (lines : List String) : List String :=
  catLists (lines.map lineSqls)

/-! Concrete streams used by the scenario parts of the claims. -/

/-- Frame 1 of the spec's scenario. -/
def scenarioLine1 : String := "data: \x7b\"delta\":\x7b\"content\":[\x7b\"type\":\"text\",\"text\":\"Hello \"\x7d]\x7d\x7d"

/-- Frame 2 of the spec's scenario. -/
def scenarioLine2 : String := "data: \x7b\"delta\":\x7b\"content\":[\x7b\"type\":\"text\",\"text\":\"world\"\x7d]\x7d\x7d"

/-- The terminator of the spec's scenario. -/
def scenarioDone : String := "data: [DONE]"

/-- The spec's two-frame scenario stream. -/
def scenarioLines : List String := [scenarioLine1, scenarioLine2, scenarioDone]

/-- A frame whose content item is tagged `tool_results` but carries no
`tool_results` field. -/
def badToolResultsLine : String := "data: \x7b\"delta\":\x7b\"content\":[\x7b\"type\":\"tool_results\"\x7d]\x7d\x7d"

/-- A `data:` line whose payload is not valid JSON. -/
def notJsonLine : String := "data: notjson"

/-- A frame with an empty top-level `delta` object and a nested `data.delta`
carrying a text item. -/
def emptyDeltaLine : String := "data: \x7b\"delta\":\x7b\x7d,\"data\":\x7b\"delta\":\x7b\"content\":[\x7b\"type\":\"text\",\"text\":\"X\"\x7d]\x7d\x7d\x7d"

/-- The payload of `emptyDeltaLine`. -/
def emptyDeltaPayload : String := "\x7b\"delta\":\x7b\x7d,\"data\":\x7b\"delta\":\x7b\"content\":[\x7b\"type\":\"text\",\"text\":\"X\"\x7d]\x7d\x7d\x7d"

/-- The event `emptyDeltaPayload` parses to. -/
def emptyDeltaEvt : JVal :=
  .obj [("delta", .obj []),
        ("data", .obj [("delta", .obj [("content",
          .arr [.obj [("type", .str "text"), ("text", .str "X")]])])])]

/-- The nested `data.delta` object of `emptyDeltaEvt`. -/
def emptyDeltaNested : JVal :=
  .obj [("content", .arr [.obj [("type", .str "text"), ("text", .str "X")]])]

/-- A frame whose tool result carries two identical `searchResults` entries. -/
def dupCiteLine : String := "data: \x7b\"delta\":\x7b\"content\":[\x7b\"type\":\"tool_results\",\"tool_results\":\x7b\"content\":[\x7b\"type\":\"json\",\"json\":\x7b\"searchResults\":[\x7b\"source_id\":\"a\",\"doc_id\":\"1\"\x7d,\x7b\"source_id\":\"a\",\"doc_id\":\"1\"\x7d]\x7d\x7d]\x7d\x7d]\x7d\x7d"

/-- The citation dict both `searchResults` entries of `dupCiteLine` yield. -/
def dupCite : JVal := .obj [("source_id", .str "a"), ("doc_id", .str "1")]

/-- A frame whose tool result supplies `sql: "SELECT 1"`. -/
def sqlLine1 : String := "data: \x7b\"delta\":\x7b\"content\":[\x7b\"type\":\"tool_results\",\"tool_results\":\x7b\"content\":[\x7b\"type\":\"json\",\"json\":\x7b\"sql\":\"SELECT 1\"\x7d\x7d]\x7d\x7d]\x7d\x7d"

/-- A frame whose tool result supplies `sql: "SELECT 2"`. -/
def sqlLine2 : String := "data: \x7b\"delta\":\x7b\"content\":[\x7b\"type\":\"tool_results\",\"tool_results\":\x7b\"content\":[\x7b\"type\":\"json\",\"json\":\x7b\"sql\":\"SELECT 2\"\x7d\x7d]\x7d\x7d]\x7d\x7d"

/-- A query of half-width katakana (U+FF71 U+FF72 U+FF73), outside the
detector's ranges. -/
def halfwidthKatakanaQuery : String := "ｱｲｳ"

/-! Helper lemmas: inversion of `Except` binds and the accumulation shape of
the decoder's folds. -/

/-- Inversion of a successful `Except` bind. -/
theorem exceptBind_ok {ε α β : Type} {x : Except ε α} {g : α → Except ε β} {b : β} :
    x >>= g = Except.ok b ↔ ∃ a, x = Except.ok a ∧ g a = Except.ok b := by
  cases x <;> simp [Bind.bind, Except.bind]

/-- A successful `appendCitation` appended exactly the passed-through pair. -/
theorem appendCitation_ok (cs : List JVal) (s : JVal) (cs' : List JVal)
    (h : appendCitation cs s = .ok cs') : cs' = cs ++ [citeOf s] := by
  cases s <;> simp [appendCitation, pyGet, pyGetD] at h
  simp [← h, citeOf, jLookup]

/-- `appendCitation` raises on a string element (the shape dict and string
iteration produce). -/
theorem appendCitation_str (cs : List JVal) (s : String) :
    ∃ e, appendCitation cs (JVal.str s) = .error e := by
  simp [appendCitation, pyGet, pyGetD]

/-- A successful citation fold appended the `citeOf` image in order. -/
theorem foldCitations (xs : List JVal) : ∀ (cs cs' : List JVal),
    xs.foldlM appendCitation cs = .ok cs' → cs' = cs ++ xs.map citeOf := by
  induction xs with
  | nil =>
    intro cs cs' h
    simp [List.foldlM_nil, pure, Except.pure] at h
    simp [← h]
  | cons x xs ih =>
    intro cs cs' h
    rw [List.foldlM_cons] at h
    obtain ⟨c1, h1, h2⟩ := exceptBind_ok.mp h
    rw [appendCitation_ok cs x c1 h1] at h2
    rw [ih _ _ h2]
    simp

/-- The generic accumulation shape of the decoder's folds: when every
successful step appends a per-element text and citation contribution, a
successful fold appends their in-order concatenations. -/
theorem foldAccum {α : Type} (f : AccState → α → Except PyErr AccState)
    (g : α → String) (cb : α → List JVal)
    (hf : ∀ st x st', f st x = .ok st' → st' = (st.1 ++ g x, st.2 ++ cb x)) :
    ∀ (xs : List α) (st st' : AccState), xs.foldlM f st = .ok st' →
      st' = (st.1 ++ joinStr (xs.map g), st.2 ++ catLists (xs.map cb)) := by
  intro xs
  induction xs with
  | nil =>
    intro st st' h
    simp [List.foldlM_nil, pure, Except.pure] at h
    simp [← h, joinStr, catLists]
  | cons x xs ih =>
    intro st st' h
    rw [List.foldlM_cons] at h
    obtain ⟨st1, h1, h2⟩ := exceptBind_ok.mp h
    rw [hf st x st1 h1] at h2
    rw [ih _ _ h2]
    simp [joinStr, catLists, String.append_assoc]

/-- An object value is exactly an `obj`. -/
theorem isObj_iff (v : JVal) : v.isObj = true ↔ ∃ kvs, v = .obj kvs := by
  cases v <;> simp [JVal.isObj]

/-- A lookup defaulted to the empty string that produced a string is the
spec's `jStr` of that lookup. -/
theorem jStr_getD (o : Option JVal) (s : String)
    (h : o.getD (JVal.str "") = JVal.str s) : jStr o = s := by
  cases o with
  | none =>
    simp [Option.getD] at h
    simp [jStr, ← h]
  | some v =>
    simp [Option.getD] at h
    subst h
    simp [jStr]

/-- Defaulting an absent field to `null` or to the empty array yields the
same elements. -/
theorem jElems_getD_null_arr (o : Option JVal) :
    jElems (o.getD JVal.null) = jElems (o.getD (JVal.arr [])) := by
  cases o <;> simp [jElems]

/-- A successful iteration followed by a successful citation fold appended
exactly the `citeOf` image of the value's array elements. -/
theorem iterFoldCitations (v : JVal) (elems : List JVal) (cs cs' : List JVal)
    (hit : pyIter v = .ok elems) (hfold : elems.foldlM appendCitation cs = .ok cs') :
    cs' = cs ++ (jElems v).map citeOf := by
  cases v with
  | arr xs =>
    simp [pyIter] at hit
    subst hit
    simpa [jElems] using foldCitations xs cs cs' hfold
  | str s =>
    simp [pyIter] at hit
    subst hit
    cases hs : s.data with
    | nil => simp [hs, List.foldlM_nil, pure, Except.pure] at hfold; simp [jElems, ← hfold]
    | cons c rest =>
      rw [hs] at hfold
      rw [List.map_cons, List.foldlM_cons] at hfold
      obtain ⟨e, he⟩ := appendCitation_str cs (String.mk [c])
      rw [he] at hfold
      simp [Bind.bind, Except.bind] at hfold
  | obj kvs =>
    simp [pyIter] at hit
    subst hit
    cases kvs with
    | nil => simp [List.foldlM_nil, pure, Except.pure] at hfold; simp [jElems, ← hfold]
    | cons kv rest =>
      rw [List.map_cons, List.foldlM_cons] at hfold
      obtain ⟨e, he⟩ := appendCitation_str cs kv.1
      rw [he] at hfold
      simp [Bind.bind, Except.bind] at hfold
  | null => simp [pyIter] at hit
  | bool b => simp [pyIter] at hit
  | num m e2 => simp [pyIter] at hit

/-- A successful iteration followed by a successful accumulator fold appended
exactly the per-element contributions of the value's array elements. -/
theorem iterFoldAccum {f : AccState → JVal → Except PyErr AccState}
    {g : JVal → String} {cb : JVal → List JVal}
    (hf : ∀ st x st', f st x = .ok st' → st' = (st.1 ++ g x, st.2 ++ cb x))
    (hstr : ∀ st s, ∃ e, f st (JVal.str s) = .error e)
    (v : JVal) (elems : List JVal) (st st' : AccState)
    (hit : pyIter v = .ok elems) (hfold : elems.foldlM f st = .ok st') :
    st' = (st.1 ++ joinStr ((jElems v).map g), st.2 ++ catLists ((jElems v).map cb)) := by
  cases v with
  | arr xs =>
    simp [pyIter] at hit
    subst hit
    simpa [jElems] using foldAccum f g cb hf xs st st' hfold
  | str s =>
    simp [pyIter] at hit
    subst hit
    cases hs : s.data with
    | nil =>
      simp [hs, List.foldlM_nil, pure, Except.pure] at hfold
      simp [jElems, ← hfold, joinStr, catLists]
    | cons c rest =>
      rw [hs] at hfold
      rw [List.map_cons, List.foldlM_cons] at hfold
      obtain ⟨e, he⟩ := hstr st (String.mk [c])
      rw [he] at hfold
      simp [Bind.bind, Except.bind] at hfold
  | obj kvs =>
    simp [pyIter] at hit
    subst hit
    cases kvs with
    | nil =>
      simp [List.foldlM_nil, pure, Except.pure] at hfold
      simp [jElems, ← hfold, joinStr, catLists]
    | cons kv rest =>
      rw [List.map_cons, List.foldlM_cons] at hfold
      obtain ⟨e, he⟩ := hstr st kv.1
      rw [he] at hfold
      simp [Bind.bind, Except.bind] at hfold
  | null => simp [pyIter] at hit
  | bool b => simp [pyIter] at hit
  | num m e2 => simp [pyIter] at hit

/-- `processResult` raises on a string entry. -/
theorem processResult_str (st : AccState) (s : String) :
    ∃ e, processResult st (JVal.str s) = .error e := by
  simp [processResult, pyGet, pyGetD]

/-- A successful `processResult` appended exactly the entry's spec-side text
and citation contributions. -/
theorem processResult_ok (st : AccState) (r : JVal) (st' : AccState)
    (h : processResult st r = .ok st') :
    st' = (st.1 ++ specResultText r, st.2 ++ specResultCites r) := by
  cases r with
  | obj kvs =>
    simp only [processResult, pyGet, pyGetD] at h
    by_cases ht : isStrEq ((lookupField kvs "type").getD JVal.null) "json"
    · rw [if_pos ht] at h
      cases hj : lookupField kvs "json" with
      | none => simp [pySub, hj] at h
      | some j =>
        simp only [pySub, hj] at h
        cases j with
        | obj jkvs =>
          simp only [pyGetD] at h
          cases htx : (lookupField jkvs "text").getD (JVal.str "") with
          | str s =>
            rw [htx] at h
            simp only [pyAddStr] at h
            cases hit : pyIter ((lookupField jkvs "searchResults").getD (JVal.arr [])) with
            | error e => rw [hit] at h; simp at h
            | ok elems =>
              simp only [hit] at h
              cases hfold : elems.foldlM appendCitation st.2 with
              | error e => simp only [hfold] at h; exact Except.noConfusion h
              | ok cites =>
                simp only [hfold, Except.ok.injEq] at h
                have hc := iterFoldCitations _ _ _ _ hit hfold
                rw [← h]
                have htext : specResultText (JVal.obj kvs) = s := by
                  simp [specResultText, jTypeIs, jLookup, ht, hj]
                  exact jStr_getD _ _ htx
                have hcite : specResultCites (JVal.obj kvs) =
                    (jElems ((lookupField jkvs "searchResults").getD (JVal.arr []))).map citeOf := by
                  simp [specResultCites, jTypeIs, jLookup, ht, hj]
                  rw [jElems_getD_null_arr]
                rw [htext, hcite, hc]
          | null => rw [htx] at h; simp [pyAddStr] at h
          | bool b => rw [htx] at h; simp [pyAddStr] at h
          | num m e2 => rw [htx] at h; simp [pyAddStr] at h
          | arr xs => rw [htx] at h; simp [pyAddStr] at h
          | obj okvs => rw [htx] at h; simp [pyAddStr] at h
        | null => simp [pyGetD] at h
        | bool b => simp [pyGetD] at h
        | num m e2 => simp [pyGetD] at h
        | str s => simp [pyGetD] at h
        | arr xs => simp [pyGetD] at h
    · rw [if_neg ht] at h
      simp only [Except.ok.injEq] at h
      rw [← h]
      simp [specResultText, specResultCites, jTypeIs, jLookup, ht]
  | null => simp [processResult, pyGet, pyGetD] at h
  | bool b => simp [processResult, pyGet, pyGetD] at h
  | num m e2 => simp [processResult, pyGet, pyGetD] at h
  | str s => simp [processResult, pyGet, pyGetD] at h
  | arr xs => simp [processResult, pyGet, pyGetD] at h

/-- `processItem` raises on a string item. -/
theorem processItem_str (st : AccState) (s : String) :
    ∃ e, processItem st (JVal.str s) = .error e := by
  simp [processItem, pyGet, pyGetD]

/-- A successful `processItem` appended exactly the item's spec-side text and
citation contributions. -/
theorem processItem_ok (st : AccState) (item : JVal) (st' : AccState)
    (h : processItem st item = .ok st') :
    st' = (st.1 ++ specItemText item, st.2 ++ specItemCites item) := by
  cases item with
  | obj kvs =>
    simp only [processItem, pyGet, pyGetD] at h
    by_cases ht : isStrEq ((lookupField kvs "type").getD JVal.null) "text"
    · rw [if_pos ht] at h
      cases htx : (lookupField kvs "text").getD (JVal.str "") with
      | str s =>
        have htext : specItemText (JVal.obj kvs) = s := by
          simp [specItemText, jTypeIs, jLookup, ht]
          exact jStr_getD _ _ htx
        have hcite : specItemCites (JVal.obj kvs) = [] := by
          simp [specItemCites, jTypeIs, jLookup, ht]
        simp only [htx, pyAddStr, Except.ok.injEq] at h
        rw [← h, htext, hcite]
        simp
      | null => simp only [htx, pyAddStr] at h; exact Except.noConfusion h
      | bool b => simp only [htx, pyAddStr] at h; exact Except.noConfusion h
      | num m e2 => simp only [htx, pyAddStr] at h; exact Except.noConfusion h
      | arr xs => simp only [htx, pyAddStr] at h; exact Except.noConfusion h
      | obj okvs => simp only [htx, pyAddStr] at h; exact Except.noConfusion h
    · rw [if_neg ht] at h
      by_cases ht2 : isStrEq ((lookupField kvs "type").getD JVal.null) "tool_results"
      · rw [if_pos ht2] at h
        cases htr : lookupField kvs "tool_results" with
        | none => simp [pySub, htr] at h
        | some tr =>
          simp only [pySub, htr] at h
          cases tr with
          | obj tkvs =>
            simp only [pyGetD] at h
            cases hit : pyIter ((lookupField tkvs "content").getD (JVal.arr [])) with
            | error e => simp only [hit] at h; exact Except.noConfusion h
            | ok results =>
              simp only [hit] at h
              have hacc := iterFoldAccum processResult_ok processResult_str _ _ _ _ hit h
              have htext : specItemText (JVal.obj kvs) =
                  joinStr ((jElems ((lookupField tkvs "content").getD (JVal.arr []))).map specResultText) := by
                simp [specItemText, jTypeIs, jLookup, ht, ht2, itemEntries, htr]
                rw [jElems_getD_null_arr]
              have hcite : specItemCites (JVal.obj kvs) =
                  catLists ((jElems ((lookupField tkvs "content").getD (JVal.arr []))).map specResultCites) := by
                simp [specItemCites, jTypeIs, jLookup, ht, ht2, itemEntries, htr]
                rw [jElems_getD_null_arr]
              rw [hacc, htext, hcite]
          | null => simp [pyGetD] at h
          | bool b => simp [pyGetD] at h
          | num m e2 => simp [pyGetD] at h
          | str s => simp [pyGetD] at h
          | arr xs => simp [pyGetD] at h
      · rw [if_neg ht2] at h
        simp only [Except.ok.injEq] at h
        rw [← h]
        simp [specItemText, specItemCites, jTypeIs, jLookup, ht, ht2]
  | null => simp [processItem, pyGet, pyGetD] at h
  | bool b => simp [processItem, pyGet, pyGetD] at h
  | num m e2 => simp [processItem, pyGet, pyGetD] at h
  | str s => simp [processItem, pyGet, pyGetD] at h
  | arr xs => simp [processItem, pyGet, pyGetD] at h

/-- A successful `processDelta` on a delta dict appended exactly the items'
spec-side contributions. -/
theorem processDelta_ok (st : AccState) (dkvs : List (String × JVal)) (st' : AccState)
    (h : processDelta st (JVal.obj dkvs) = .ok st') :
    st' = (st.1 ++ joinStr ((jElems ((lookupField dkvs "content").getD JVal.null)).map specItemText),
           st.2 ++ catLists ((jElems ((lookupField dkvs "content").getD JVal.null)).map specItemCites)) := by
  simp only [processDelta, pyGetD] at h
  cases hit : pyIter ((lookupField dkvs "content").getD (JVal.arr [])) with
  | error e => simp only [hit] at h; exact Except.noConfusion h
  | ok items =>
    simp only [hit] at h
    have hacc := iterFoldAccum processItem_ok processItem_str _ _ _ _ hit h
    rw [hacc, jElems_getD_null_arr]

/-- A successful delta selection is what `specEvtDelta` locates. -/
theorem codeDeltaSelect_ok (evt delta : JVal) (h : codeDeltaSelect evt = .ok delta) :
    specEvtDelta evt = some delta := by
  cases evt with
  | obj kvs =>
    simp only [codeDeltaSelect, pyGet, pyGetD] at h
    by_cases htr : ((lookupField kvs "delta").getD JVal.null).truthy
    · rw [if_pos htr] at h
      simp only [Except.ok.injEq] at h
      subst h
      simp [specEvtDelta, htr]
    · rw [if_neg htr] at h
      cases hdata : (lookupField kvs "data").getD (JVal.obj []) with
      | obj dkvs =>
        rw [hdata] at h
        simp only [pyGet, pyGetD, Except.ok.injEq] at h
        subst h
        simp [specEvtDelta, htr, hdata]
      | null => rw [hdata] at h; simp [pyGet, pyGetD] at h
      | bool b => rw [hdata] at h; simp [pyGet, pyGetD] at h
      | num m e2 => rw [hdata] at h; simp [pyGet, pyGetD] at h
      | str s => rw [hdata] at h; simp [pyGet, pyGetD] at h
      | arr xs => rw [hdata] at h; simp [pyGet, pyGetD] at h
  | null => simp [codeDeltaSelect, pyGet, pyGetD] at h
  | bool b => simp [codeDeltaSelect, pyGet, pyGetD] at h
  | num m e2 => simp [codeDeltaSelect, pyGet, pyGetD] at h
  | str s => simp [codeDeltaSelect, pyGet, pyGetD] at h
  | arr xs => simp [codeDeltaSelect, pyGet, pyGetD] at h

/-- A successful `processEvt` appended exactly the event's spec-side
contributions. -/
theorem processEvt_ok (st : AccState) (evt : JVal) (st' : AccState)
    (h : processEvt st evt = .ok st') :
    st' = (st.1 ++ joinStr ((specEvtItems evt).map specItemText),
           st.2 ++ catLists ((specEvtItems evt).map specItemCites)) := by
  simp only [processEvt] at h
  cases hsel : codeDeltaSelect evt with
  | error e => rw [hsel] at h; exact Except.noConfusion h
  | ok delta =>
    simp only [hsel] at h
    have hspec := codeDeltaSelect_ok evt delta hsel
    by_cases hobj : delta.isObj = true
    · obtain ⟨dkvs, rfl⟩ := (isObj_iff delta).mp hobj
      rw [if_pos hobj] at h
      have := processDelta_ok st dkvs st' h
      rw [this]
      simp [specEvtItems, hspec]
    · rw [if_neg hobj] at h
      simp only [Except.ok.injEq] at h
      have hitems : specEvtItems evt = [] := by
        simp only [specEvtItems, hspec]
        cases delta with
        | obj dkvs => simp [JVal.isObj] at hobj
        | null => rfl
        | bool b => rfl
        | num m e2 => rfl
        | str s => rfl
        | arr xs => rfl
      rw [← h, hitems]
      simp [joinStr, catLists]

/-- A successful `processPayload` appended exactly the payload's spec-side
contributions. -/
theorem processPayload_ok (st : AccState) (p : String) (st' : AccState)
    (h : processPayload st p = .ok st') :
    st' = (st.1 ++ joinStr ((specPayloadItems p).map specItemText),
           st.2 ++ catLists ((specPayloadItems p).map specItemCites)) := by
  simp only [processPayload] at h
  cases hp : parseJson p with
  | none =>
    rw [hp] at h
    simp only [Except.ok.injEq] at h
    rw [← h]
    simp [specPayloadItems, hp, joinStr, catLists]
  | some evt =>
    rw [hp] at h
    rw [processEvt_ok st evt st' h]
    simp [specPayloadItems, hp]

/-- A successful `processLine` appended exactly the line's spec-side
contributions. -/
theorem processLine_ok (st : AccState) (raw : String) (st' : AccState)
    (h : processLine st raw = .ok st') :
    st' = (st.1 ++ joinStr ((specLineItems raw).map specItemText),
           st.2 ++ catLists ((specLineItems raw).map specItemCites)) := by
  simp only [processLine] at h
  cases hl : payloadOfLine raw with
  | none =>
    rw [hl] at h
    simp only [Except.ok.injEq] at h
    rw [← h]
    simp [specLineItems, hl, joinStr, catLists]
  | some p =>
    rw [hl] at h
    rw [processPayload_ok st p st' h]
    simp [specLineItems, hl]

/-- A successful run of the decoder returns the spec-side text, the empty SQL
string and the spec-side citations. -/
theorem process_ok (lines : List String) (r : String × String × List JVal)
    (h : process_sse_response lines = .ok r) :
    r = (specText lines, "", specCitations lines) := by
  simp only [process_sse_response] at h
  cases hf : lines.foldlM processLine ("", []) with
  | error e => rw [hf] at h; exact Except.noConfusion h
  | ok st =>
    rw [hf] at h
    simp only [Except.ok.injEq] at h
    have hacc := foldAccum processLine
      (fun raw => joinStr ((specLineItems raw).map specItemText))
      (fun raw => catLists ((specLineItems raw).map specItemCites))
      processLine_ok lines ("", []) st hf
    rw [← h, hacc]
    simp [specText, specCitations, String.empty_append]

/-- `getLastD` over an append takes the right list's last, falling back to
the left's. -/
theorem getLastD_append (a b : List String) (d : String) :
    (a ++ b).getLastD d = b.getLastD (a.getLastD d) := by
  induction a generalizing d with
  | nil => simp
  | cons x xs ih => rw [List.cons_append, List.getLastD_cons, List.getLastD_cons, ih]

/-- One full-accumulator tool-result step: the retained SQL is the step's own
write when it made one, the previous value otherwise. -/
theorem fullResult_sql (acc : FullAcc) (r : JVal) :
    (fullResult acc r).sql = (resultSqls r).getLastD acc.sql := by
  by_cases ht : jTypeIs r "json"
  · simp only [fullResult, resultSqls, if_pos ht]
    cases hs : jLookup ((jLookup r "json").getD JVal.null) "sql" with
    | none => simp
    | some v => cases v <;> simp
  · simp [fullResult, resultSqls, ht]

/-- Folding a step whose retained SQL is its own last write over a list
retains the last write of the whole list. -/
theorem foldl_sql {α : Type} (f : FullAcc → α → FullAcc) (g : α → List String)
    (hf : ∀ acc x, (f acc x).sql = (g x).getLastD acc.sql) :
    ∀ (xs : List α) (acc : FullAcc),
      (xs.foldl f acc).sql = (catLists (xs.map g)).getLastD acc.sql := by
  intro xs
  induction xs with
  | nil => intro acc; simp [catLists]
  | cons x xs ih =>
    intro acc
    rw [List.foldl_cons, ih, List.map_cons]
    show _ = (catLists (g x :: List.map g xs)).getLastD acc.sql
    rw [show catLists (g x :: List.map g xs) = g x ++ catLists (List.map g xs) from rfl]
    rw [getLastD_append, hf]

/-- One full-accumulator content-item step retains the item's last SQL write. -/
theorem fullItem_sql (acc : FullAcc) (item : JVal) :
    (fullItem acc item).sql = (itemSqls item).getLastD acc.sql := by
  by_cases ht : jTypeIs item "text"
  · simp [fullItem, itemSqls, ht]
  · by_cases ht2 : jTypeIs item "tool_results"
    · simp only [fullItem, itemSqls, if_neg ht, if_pos ht2]
      exact foldl_sql fullResult resultSqls fullResult_sql (itemEntries item) acc
    · simp [fullItem, itemSqls, ht, ht2]

/-- One full-accumulator event step retains the event's last SQL write. -/
theorem fullEvt_sql (acc : FullAcc) (evt : JVal) :
    (fullEvt acc evt).sql = (evtSqls evt).getLastD acc.sql := by
  simp only [fullEvt, evtSqls]
  cases specDeltaRule evt with
  | none => simp
  | some delta =>
    exact foldl_sql fullItem itemSqls fullItem_sql _ acc

/-- One full-accumulator line step retains the line's last SQL write. -/
theorem fullLine_sql (acc : FullAcc) (raw : String) :
    (fullLine acc raw).sql = (lineSqls raw).getLastD acc.sql := by
  simp only [fullLine, lineSqls]
  cases hl : payloadOfLine raw with
  | none => simp
  | some p =>
    simp only []
    cases hp : parseJson p with
    | none => simp
    | some evt =>
      simp only []
      exact fullEvt_sql acc evt

/-- The full decoder's retained SQL is the last write of the whole stream
(the empty string when there was none). -/
theorem process_full_sql (lines : List String) :
    (process_sse_response_full lines).sql = (sqlWrites lines).getLastD "" := by
  simp only [process_sse_response_full, sqlWrites]
  exact foldl_sql fullLine lineSqls fullLine_sql lines { text := "", sql := "", citations := [] }

/-- A successful `runTry` always returns a dict. -/
theorem runTry_ok_obj (net : HttpOutcome) (d : JVal) (h : runTry net = .ok d) :
    d.isObj = true := by
  cases net with
  | exn m => simp [runTry] at h
  | response status body lines se =>
    simp only [runTry] at h
    by_cases hs : (status != 200) = true
    · rw [if_pos hs] at h
      simp only [Except.ok.injEq] at h
      rw [← h]
      rfl
    · rw [if_neg hs] at h
      cases hp : process_sse_response lines with
      | error e => rw [hp] at h; exact Except.noConfusion h
      | ok r =>
        simp only [hp] at h
        cases se with
        | some m => simp at h
        | none =>
          simp only [Except.ok.injEq] at h
          rw [← h]
          rfl

/-- Claim C1: for every finite sequence of input lines, the text a successful
run of the SSE decoder returns equals the in-order concatenation of the
`text` fields (defaulting to the empty string when missing) of every
`text`-typed content item and every `json`-typed tool-result entry of every
valid `data:` frame — blank lines, non-`data:` lines, empty payloads and the
`[DONE]` sentinel contribute nothing (all of which `specText` encodes); and
the spec's two-frame scenario yields text `"Hello world"`, empty sql and
empty citations. -/
theorem sse_text_is_spec_concatenation :
    (∀ (lines : List String) (r : String × String × List JVal),
        process_sse_response lines = .ok r → r.1 = specText lines) ∧
    process_sse_response scenarioLines = .ok ("Hello world", "", []) := by
  constructor
  · intro lines r h
    rw [process_ok lines r h]
  · rfl

/-- The spec-side concatenation evaluated at the scenario stream, via C1's
theorem. -/
theorem sse_text_spec_concat_scenario :
    ("Hello world" : String) = specText scenarioLines :=
  sse_text_is_spec_concatenation.1 scenarioLines ("Hello world", "", []) (by rfl)

/-- Claim C2, counterexample: a frame whose content item is tagged
`tool_results` but lacks the `tool_results` field makes the decoder raise
`KeyError` (the raw `item["tool_results"]` subscript), refuting "every field
access inside a parsed delta ... defaults gracefully ... rather than failing
the whole request". -/
theorem sse_decoder_keyerror_on_missing_tool_results :
    process_sse_response [badToolResultsLine] = .error (.keyError "tool_results") := rfl

/-- Claim C2, amended: a payload that is not valid JSON is silently skipped
leaving the state unchanged, and such a frame anywhere in the stream does not
affect extraction from the other frames; the concrete scenario stream with a
malformed frame inserted still decodes fully. -/
theorem malformed_frames_skipped_and_isolated :
    (∀ (st : AccState) (p : String), parseJson p = none → processPayload st p = .ok st) ∧
    (∀ (lines1 lines2 : List String) (raw p : String),
        payloadOfLine raw = some p → parseJson p = none →
        process_sse_response (lines1 ++ raw :: lines2) =
          process_sse_response (lines1 ++ lines2)) ∧
    process_sse_response [scenarioLine1, notJsonLine, scenarioLine2, scenarioDone] =
      .ok ("Hello world", "", []) := by
  refine ⟨?_, ?_, rfl⟩
  · intro st p hp
    simp [processPayload, hp]
  · intro lines1 lines2 raw p hraw hp
    have hline : ∀ st : AccState, processLine st raw = .ok st := by
      intro st
      simp [processLine, hraw, processPayload, hp]
    have hfold : ∀ init : AccState,
        (lines1 ++ raw :: lines2).foldlM processLine init =
          (lines1 ++ lines2).foldlM processLine init := by
      intro init
      induction lines1 generalizing init with
      | nil => simp [List.foldlM_cons, hline init, Bind.bind, Except.bind]
      | cons l ls ih =>
        rw [List.cons_append, List.cons_append, List.foldlM_cons, List.foldlM_cons]
        cases hL : processLine init l with
        | error e => simp [Bind.bind, Except.bind, hL]
        | ok st1 => simp [Bind.bind, Except.bind, hL, ih st1]
    simp [process_sse_response, hfold]

/-- A malformed frame inserted into the scenario stream leaves the decoder's
result unchanged, via C2's amended theorem. -/
theorem malformed_frame_isolation_instance :
    process_sse_response [scenarioLine1, notJsonLine, scenarioLine2] =
      process_sse_response [scenarioLine1, scenarioLine2] :=
  malformed_frames_skipped_and_isolated.2.1 [scenarioLine1] [scenarioLine2]
    notJsonLine "notjson" (by rfl) (by rfl)

/-- Claim C3 (spec-modelled): the full-agent decoder's retained SQL is the
last `sql` value supplied across the whole stream, not the first; with the
two-frame two-SQL stream as the spec's order-sensitivity check. -/
theorem full_decoder_sql_last_write_wins :
    (∀ lines : List String,
        (process_sse_response_full lines).sql = (sqlWrites lines).getLastD "") ∧
    sqlWrites [sqlLine1, sqlLine2] = ["SELECT 1", "SELECT 2"] ∧
    (process_sse_response_full [sqlLine1, sqlLine2]).sql = "SELECT 2" :=
  ⟨process_full_sql, rfl, rfl⟩

/-- Claim C4, counterexample: in a frame whose top-level `delta` is present
AND an object (the empty object), the claim's rule selects that empty delta
(which contributes nothing), yet the code's truthiness-based `or` falls
through to `data.delta` and extracts `"X"`. -/
theorem delta_truthiness_counterexample :
    parseJson emptyDeltaPayload = some emptyDeltaEvt ∧
    jLookup emptyDeltaEvt "delta" = some (JVal.obj []) ∧
    (JVal.obj ([] : List (String × JVal))).isObj = true ∧
    specDeltaRule emptyDeltaEvt = some (JVal.obj []) ∧
    codeDeltaSelect emptyDeltaEvt = .ok emptyDeltaNested ∧
    emptyDeltaNested ≠ JVal.obj [] ∧
    process_sse_response [emptyDeltaLine] = .ok ("X", "", []) := by
  refine ⟨rfl, rfl, rfl, rfl, rfl, ?_, rfl⟩
  intro hc
  simp [emptyDeltaNested] at hc

/-- Claim C4, amended: the delta is taken from the top-level `delta` field
when it is present and truthy; when it is absent or falsy (the empty object
included) the `delta` under `data` is consulted (with `data` defaulting to an
empty object); the selected value is used only when it is a dict, otherwise
the frame contributes nothing; and a delta without a `content` field is
treated as an empty sequence. -/
theorem delta_selection_amended :
    (∀ (kvs : List (String × JVal)) (d : JVal),
        lookupField kvs "delta" = some d → d.truthy = true →
        codeDeltaSelect (JVal.obj kvs) = .ok d) ∧
    (∀ (kvs dkvs : List (String × JVal)),
        ((lookupField kvs "delta").getD JVal.null).truthy = false →
        (lookupField kvs "data").getD (JVal.obj []) = JVal.obj dkvs →
        codeDeltaSelect (JVal.obj kvs) = .ok ((lookupField dkvs "delta").getD JVal.null)) ∧
    (∀ (st : AccState) (evt d : JVal),
        codeDeltaSelect evt = .ok d → d.isObj = false → processEvt st evt = .ok st) ∧
    (∀ (st : AccState) (dkvs : List (String × JVal)),
        lookupField dkvs "content" = none → processDelta st (JVal.obj dkvs) = .ok st) := by
  refine ⟨?_, ?_, ?_, ?_⟩
  · intro kvs d hd htruthy
    simp [codeDeltaSelect, pyGet, pyGetD, hd, htruthy]
  · intro kvs dkvs hfalsy hdata
    simp [codeDeltaSelect, pyGet, pyGetD, hfalsy, hdata]
  · intro st evt d hsel hobj
    simp [processEvt, hsel, hobj]
  · intro st dkvs hnone
    simp [processDelta, pyGetD, hnone, pyIter, List.foldlM_nil, pure, Except.pure]

/-- The amended delta-selection rule at concrete inputs, via C4's amended
theorem. -/
theorem delta_selection_amended_instance :
    codeDeltaSelect (JVal.obj [("delta", JVal.obj [("content", JVal.arr [])])]) =
      .ok (JVal.obj [("content", JVal.arr [])]) ∧
    codeDeltaSelect (JVal.obj [("delta", JVal.obj []),
        ("data", JVal.obj [("delta", JVal.obj [])])]) = .ok (JVal.obj []) ∧
    processEvt ("", []) (JVal.obj [("delta", JVal.str "x")]) = .ok ("", []) ∧
    processDelta ("", []) (JVal.obj [("other", JVal.null)]) = .ok ("", []) :=
  ⟨delta_selection_amended.1 [("delta", JVal.obj [("content", JVal.arr [])])]
      (JVal.obj [("content", JVal.arr [])]) rfl rfl,
   delta_selection_amended.2.1 [("delta", JVal.obj []),
      ("data", JVal.obj [("delta", JVal.obj [])])] [("delta", JVal.obj [])] rfl rfl,
   delta_selection_amended.2.2.1 ("", []) (JVal.obj [("delta", JVal.str "x")])
      (JVal.str "x") rfl rfl,
   delta_selection_amended.2.2.2 ("", []) [("other", JVal.null)] rfl⟩

/-- Claim C5: a successful run's citation list is the spec-side per-element
collection — one passed-through `{source_id, doc_id}` dict (null-valued when
absent) per `searchResults` element of every `json`-typed tool-result entry,
in arrival order with no deduplication; a stream carrying two identical pairs
returns both. -/
theorem citations_arrival_order_no_dedup :
    (∀ (lines : List String) (r : String × String × List JVal),
        process_sse_response lines = .ok r → r.2.2 = specCitations lines) ∧
    process_sse_response [dupCiteLine] = .ok ("", "", [dupCite, dupCite]) ∧
    citeOf (JVal.obj []) = JVal.obj [("source_id", JVal.null), ("doc_id", JVal.null)] := by
  refine ⟨?_, rfl, rfl⟩
  intro lines r h
  rw [process_ok lines r h]

/-- The spec-side citation collection at the duplicate-pair stream, via C5's
theorem. -/
theorem citations_spec_instance :
    ([dupCite, dupCite] : List JVal) = specCitations [dupCiteLine] :=
  citations_arrival_order_no_dedup.1 [dupCiteLine] ("", "", [dupCite, dupCite]) (by rfl)

/-- Claim C6: the search-only flavor discards any SQL — every successful run
of `process_sse_response` has the empty string as its sql component, and the
successful result of `run_cortex_search` is exactly `{text, citations}`,
with no `sql` or `results` key. -/
theorem search_only_result_omits_sql :
    (∀ (lines : List String) (r : String × String × List JVal),
        process_sse_response lines = .ok r → r.2.1 = "") ∧
    (∀ (q body : String) (lines : List String) (r : String × String × List JVal),
        detect_japanese q = false → process_sse_response lines = .ok r →
        run_cortex_search q (.response 200 body lines none) =
          JVal.obj [("text", JVal.str r.1), ("citations", JVal.arr r.2.2)]) ∧
    (∀ (q body : String) (lines : List String) (r : String × String × List JVal),
        detect_japanese q = false → process_sse_response lines = .ok r →
        jLookup (run_cortex_search q (.response 200 body lines none)) "sql" = none ∧
        jLookup (run_cortex_search q (.response 200 body lines none)) "results" = none) := by
  have hshape : ∀ (q body : String) (lines : List String) (r : String × String × List JVal),
      detect_japanese q = false → process_sse_response lines = .ok r →
      run_cortex_search q (.response 200 body lines none) =
        JVal.obj [("text", JVal.str r.1), ("citations", JVal.arr r.2.2)] := by
    intro q body lines r hq hr
    simp [run_cortex_search, hq, runTry, hr]
  refine ⟨?_, hshape, ?_⟩
  · intro lines r h
    simp only [process_sse_response] at h
    cases hf : lines.foldlM processLine ("", []) with
    | error e => rw [hf] at h; exact Except.noConfusion h
    | ok st =>
      rw [hf] at h
      simp only [Except.ok.injEq] at h
      rw [← h]
  · intro q body lines r hq hr
    rw [hshape q body lines r hq hr]
    exact ⟨rfl, rfl⟩

/-- The search-only result shape at the scenario stream, via C6's theorem. -/
theorem search_only_result_instance :
    run_cortex_search "hi" (.response 200 "" scenarioLines none) =
      JVal.obj [("text", JVal.str "Hello world"), ("citations", JVal.arr [])] ∧
    jLookup (run_cortex_search "hi" (.response 200 "" scenarioLines none)) "sql" = none ∧
    jLookup (run_cortex_search "hi" (.response 200 "" scenarioLines none)) "results" = none :=
  ⟨search_only_result_omits_sql.2.1 "hi" "" scenarioLines ("Hello world", "", [])
      (by rfl) (by rfl),
   (search_only_result_omits_sql.2.2 "hi" "" scenarioLines ("Hello world", "", [])
      (by rfl) (by rfl)).1,
   (search_only_result_omits_sql.2.2 "hi" "" scenarioLines ("Hello world", "", [])
      (by rfl) (by rfl)).2⟩

/-- Claim C7: `run_cortex_search` never propagates an exception — its result
is always a dict, and each failure of the network phase (an exception while
opening or sending, an exception raised by the decoder, a transport failure
while the stream is read) is caught and converted to the error-tagged dict. -/
theorem run_search_never_propagates :
    (∀ (q : String) (net : HttpOutcome), (run_cortex_search q net).isObj = true) ∧
    (∀ (q m : String), detect_japanese q = false →
        run_cortex_search q (.exn m) =
          JVal.obj [("error", JVal.str ("Request failed: " ++ m))]) ∧
    (∀ (q body : String) (lines : List String) (e : PyErr),
        detect_japanese q = false → process_sse_response lines = .error e →
        run_cortex_search q (.response 200 body lines none) =
          JVal.obj [("error", JVal.str ("Request failed: " ++ e.msg))]) ∧
    (∀ (q body m : String) (lines : List String) (r : String × String × List JVal),
        detect_japanese q = false → process_sse_response lines = .ok r →
        run_cortex_search q (.response 200 body lines (some m)) =
          JVal.obj [("error", JVal.str ("Request failed: " ++ m))]) := by
  refine ⟨?_, ?_, ?_, ?_⟩
  · intro q net
    by_cases hq : detect_japanese q = true
    · simp [run_cortex_search, hq, translationResponse, JVal.isObj]
    · simp only [run_cortex_search, if_neg hq]
      cases hrt : runTry net with
      | ok d => simp only [hrt]; exact runTry_ok_obj net d hrt
      | error e => simp only [hrt]; rfl
  · intro q m hq
    simp [run_cortex_search, hq, runTry, PyErr.msg]
  · intro q body lines e hq hp
    simp [run_cortex_search, hq, runTry, hp]
  · intro q body m lines r hq hr
    simp [run_cortex_search, hq, runTry, hr, PyErr.msg]

/-- The three caught failure paths at concrete inputs, via C7's theorem. -/
theorem run_search_error_tagged_instance :
    run_cortex_search "hi" (.exn "connection reset") =
      JVal.obj [("error", JVal.str "Request failed: connection reset")] ∧
    run_cortex_search "hi" (.response 200 "" [badToolResultsLine] none) =
      JVal.obj [("error", JVal.str ("Request failed: " ++ (PyErr.keyError "tool_results").msg))] ∧
    run_cortex_search "hi" (.response 200 "" scenarioLines (some "timeout")) =
      JVal.obj [("error", JVal.str "Request failed: timeout")] :=
  ⟨run_search_never_propagates.2.1 "hi" "connection reset" rfl,
   run_search_never_propagates.2.2.1 "hi" "" [badToolResultsLine]
      (PyErr.keyError "tool_results") rfl (by rfl),
   run_search_never_propagates.2.2.2 "hi" "" "timeout" scenarioLines
      ("Hello world", "", []) rfl (by rfl)⟩

/-- Claim C8: a non-success HTTP status on the initial streaming POST makes
`run_cortex_search` return the error-tagged dict embedding the status code
and the raw body text, without attempting to parse any SSE stream (the
result is independent of the streamed lines and of any stream failure); the
search-only variant issues no further network call at all. -/
theorem http_error_short_circuits (q : String) (s : Nat) (body : String)
    (lines lines2 : List String) (se se2 : Option String)
    (hq : detect_japanese q = false) (hs : s ≠ 200) :
    run_cortex_search q (.response s body lines se) =
      JVal.obj [("error", JVal.str ("HTTP " ++ toString s ++ ": " ++ body))] ∧
    run_cortex_search q (.response s body lines se) =
      run_cortex_search q (.response s body lines2 se2) := by
  have hb : (s != 200) = true := bne_iff_ne.mpr hs
  constructor
  · simp [run_cortex_search, hq, runTry, hb]
  · simp [run_cortex_search, hq, runTry, hb]

/-- An HTTP 500 at a concrete input, via C8's theorem. -/
theorem http_error_short_circuits_instance :
    run_cortex_search "query" (.response 500 "Internal Server Error" scenarioLines none) =
      JVal.obj [("error", JVal.str "HTTP 500: Internal Server Error")] ∧
    run_cortex_search "query" (.response 500 "Internal Server Error" scenarioLines none) =
      run_cortex_search "query" (.response 500 "Internal Server Error" [] (some "x")) :=
  http_error_short_circuits "query" 500 "Internal Server Error" scenarioLines []
    none (some "x") rfl (by decide)

/-- Claim C9: a query detected as containing Japanese script makes
`run_cortex_search` return the translation-request response echoing the
original query, whatever the network would do — no HTTP request is issued
(the result does not depend on the network outcome at all). -/
theorem japanese_query_gated (q : String) (net net2 : HttpOutcome)
    (hq : detect_japanese q = true) :
    run_cortex_search q net = translationResponse q ∧
    run_cortex_search q net = run_cortex_search q net2 ∧
    jLookup (run_cortex_search q net) "status" = some (JVal.str "TRANSLATION_REQUIRED") ∧
    jLookup (run_cortex_search q net) "original_query" = some (JVal.str q) := by
  have h1 : run_cortex_search q net = translationResponse q := by
    simp [run_cortex_search, hq]
  have h2 : run_cortex_search q net2 = translationResponse q := by
    simp [run_cortex_search, hq]
  refine ⟨h1, h1.trans h2.symm, ?_, ?_⟩
  · rw [h1]; rfl
  · rw [h1]; rfl

/-- The language gate at a concrete Japanese query, via C9's theorem. -/
theorem japanese_query_gated_instance :
    run_cortex_search "こんにちは" (.exn "x") = translationResponse "こんにちは" ∧
    run_cortex_search "こんにちは" (.exn "x") =
      run_cortex_search "こんにちは" (.response 200 "" scenarioLines none) ∧
    jLookup (run_cortex_search "こんにちは" (.exn "x")) "status" =
      some (JVal.str "TRANSLATION_REQUIRED") ∧
    jLookup (run_cortex_search "こんにちは" (.exn "x")) "original_query" =
      some (JVal.str "こんにちは") :=
  japanese_query_gated "こんにちは" (.exn "x") (.response 200 "" scenarioLines none) (by rfl)

/-- Claim C10: `detect_japanese` is true exactly when some character lies in
U+3040-U+309F, U+30A0-U+30FF or U+4E00-U+9FAF; half-width katakana
(U+FF66-U+FF9D) and kanji above U+9FAF are not detected, so such queries pass
the language gate and reach the search path. -/
theorem detect_japanese_ranges :
    (∀ s : String, detect_japanese s = true ↔ ∃ c, c ∈ s.data ∧ isJapaneseChar c = true) ∧
    detect_japanese halfwidthKatakanaQuery = false ∧
    detect_japanese "ｦﾝ" = false ∧
    detect_japanese "龰" = false ∧
    detect_japanese "龯" = true ∧
    run_cortex_search halfwidthKatakanaQuery (.response 200 "" [] none) =
      JVal.obj [("text", JVal.str ""), ("citations", JVal.arr [])] := by
  refine ⟨?_, rfl, rfl, rfl, rfl, rfl⟩
  intro s
  simp [detect_japanese, List.any_eq_true]

/-- The range characterization at a concrete hiragana character, via C10's
theorem. -/
theorem detect_japanese_ranges_instance : detect_japanese "あ" = true :=
  (detect_japanese_ranges.1 "あ").mpr ⟨'あ', by decide⟩
